import Mathlib

/-!
Shallow embedding of the `nixos-upgrade` repository (files
`src/lib/synsignals.py` and `src/lib/nixos-upgrade.py`) and proofs about it.

The Python module `synsignals` keeps four globals: `_signals` (a dict from
signal number to the stored disposition, `None` before installation),
`_pending_signals` (a FIFO list of `(signum, frame)` pairs), and
`_handling_blocked` (the suspension flag).  The OS-level signal mask
manipulated through `signal.pthread_sigmask` is modelled as a further field
of the registry state.  Effects that the Python code performs against the
operating system (calling a handler, installing a disposition, raising a
signal, masking) are recorded as an explicit event trace.
-/

namespace Synsignals

/-- A signal disposition as Python's `signal.getsignal` reports it:
`SIG_DFL`, `SIG_IGN`, the Python runtime's `signal.default_int_handler`,
or an arbitrary user callable (identified by a number). -/
inductive Disposition where
  | sigDfl
  | sigIgn
  | defaultIntHandler
  | custom (id : Nat)
  deriving Repr, DecidableEq

/-- Linux signal number of SIGINT, matching `signal.SIGINT`. -/
def SIGINT : Nat := 2

/-- Linux signal number of SIGPIPE, matching `signal.SIGPIPE`. -/
def SIGPIPE : Nat := 13

/-- The module-level mutable state of `synsignals`, plus the process signal
mask (`pthread_sigmask`) that the module manipulates.  `signals` is the
`_signals` dict (association list; `none` before installation),
`pendingSignals` is `_pending_signals`, `handlingBlocked` is
`_handling_blocked`, and `mask` is the set of currently blocked signals. -/
structure RegistryState where
  signals : Option (List (Nat × Option Disposition))
  pendingSignals : List (Nat × Nat)
  handlingBlocked : Bool
  mask : List Nat
  deriving Repr, DecidableEq

/-- The state of a fresh Python process: nothing installed, empty queue,
handling not blocked, empty signal mask. -/
def initial : RegistryState :=
  { signals := none, pendingSignals := [], handlingBlocked := false, mask := [] }

/-- Python dict lookup `_signals[signum]` on the association list. -/
def lookup : List (Nat × Option Disposition) → Nat → Option (Option Disposition)
  | [], _ => none
  | (k, v) :: rest, s => if k = s then some v else lookup rest s

/-- Effect of `signal.pthread_sigmask(signal.SIG_BLOCK, xs)` on the mask:
set union, keeping the previously blocked signals first. -/
def blockList (xs mask : List Nat) : List Nat :=
  mask ++ xs.filter (fun x => decide (x ∉ mask))

/-- Effect of `signal.pthread_sigmask(signal.SIG_UNBLOCK, xs)` on the mask:
set difference. -/
def unblockList (xs mask : List Nat) : List Nat :=
  mask.filter (fun x => decide (x ∉ xs))

/-- Observable actions the registry performs while draining the queue.
`dispatch` marks an entry being popped from `_pending_signals`; the other
constructors record the individual OS-facing steps of the loop body of
`handle` (lines 99-112 of `synsignals.py`). -/
inductive Event where
  | dispatch (signum frame : Nat)
  | invoke (d : Disposition) (signum frame : Nat)
  | installDefault (signum : Nat)
  | raiseSignal (signum : Nat)
  | unblockOne (signum : Nat)
  | blockOne (signum : Nat)
  | restoreDeferring (signum : Nat)
  deriving Repr, DecidableEq

/-- Result of one pass of the body of `handle`'s `while` loop for a popped
entry: emitted events, resulting signal mask, and whether a `KeyError`
escaped (`_signals[signum]` with an unregistered signal). -/
structure EntryOut where
  events : List Event
  mask : List Nat
  err : Bool
  deriving Repr, DecidableEq

/-- Body of the `while _pending_signals` loop in `handle`
(`synsignals.py` lines 99-112), for one popped `(signum, frame)` entry:

* `handler is None` or `handler == SIG_IGN`: nothing happens;
* `handler != SIG_DFL`: `handler(signum, frame)` is called;
* `handler == SIG_DFL`: `signal.signal(signum, SIG_DFL)` (returning the
  deferring handler as `prev_handler`), `signal.raise_signal(signum)`,
  `pthread_sigmask(SIG_UNBLOCK, [signum])`,
  `pthread_sigmask(SIG_BLOCK, [signum])`,
  `signal.signal(signum, prev_handler)`. -/
def dispatchEntry (m : List (Nat × Option Disposition)) (mask : List Nat)
    (signum frame : Nat) : EntryOut :=
  match lookup m signum with
  | none => ⟨[Event.dispatch signum frame], mask, true⟩
  | some handler =>
    match handler with
    | none => ⟨[Event.dispatch signum frame], mask, false⟩
    | some d =>
      if d = Disposition.sigIgn then ⟨[Event.dispatch signum frame], mask, false⟩
      else if d = Disposition.sigDfl then
        ⟨[Event.dispatch signum frame, Event.installDefault signum,
          Event.raiseSignal signum, Event.unblockOne signum,
          Event.blockOne signum, Event.restoreDeferring signum],
         blockList [signum] (unblockList [signum] mask), false⟩
      else ⟨[Event.dispatch signum frame, Event.invoke d signum frame], mask, false⟩

/-- Result of running `handle`'s loop to completion: events, final mask,
entries still queued (non-empty only if a `KeyError` aborted the loop),
error flag. -/
structure LoopOut where
  events : List Event
  mask : List Nat
  pending : List (Nat × Nat)
  err : Bool
  deriving Repr, DecidableEq

/-- The `while _pending_signals:` loop of `handle`: pop the oldest entry
(`pop(0)`), run the loop body, repeat; a `KeyError` aborts the loop with
the remaining entries still queued. -/
def handleLoop (m : List (Nat × Option Disposition)) :
    List (Nat × Nat) → List Nat → LoopOut
  | [], mask => ⟨[], mask, [], false⟩
  | (s, f) :: rest, mask =>
    let d := dispatchEntry m mask s f
    if d.err then ⟨d.events, d.mask, rest, true⟩
    else
      let r := handleLoop m rest d.mask
      ⟨d.events ++ r.events, r.mask, r.pending, r.err⟩

/-- Result of `handle` / `unblock_handling`: new registry state, the trace
of performed actions, and whether an exception escaped. -/
structure HandleResult where
  st : RegistryState
  events : List Event
  err : Bool
  deriving Repr, DecidableEq

/-- `synsignals.handle()`: returns immediately when `_handling_blocked`;
otherwise `_block()` (mask the whole monitored set), drain the queue, and
in the `finally` clause `_unblock()` (unmask the monitored set).  Calling
it before installation would hit `pthread_sigmask(SIG_BLOCK, None)`, a
`TypeError`, modelled by the error flag. -/
def handle (st : RegistryState) : HandleResult :=
  if st.handlingBlocked then ⟨st, [], false⟩
  else
    match st.signals with
    | none => ⟨st, [], true⟩
    | some m =>
      let signums := m.map Prod.fst
      let mask1 := blockList signums st.mask
      let r := handleLoop m st.pendingSignals mask1
      let mask2 := unblockList signums r.mask
      ⟨{ st with pendingSignals := r.pending, mask := mask2 }, r.events, r.err⟩

/-- `synsignals.block_handling()`: set the suspension flag. -/
def block_handling (st : RegistryState) : RegistryState :=
  { st with handlingBlocked := true }

/-- `synsignals.unblock_handling()`: clear the suspension flag, then call
`handle()` on the very same call path. -/
def unblock_handling (st : RegistryState) : HandleResult :=
  handle { st with handlingBlocked := false }

/-- `synsignals._register_signal(signum, frame)` (the deferring handler,
run in interrupt context): `_block()`, append `(signum, frame)` to
`_pending_signals`, `_unblock()`.  Before installation `_block()` raises
`TypeError`; the Boolean reports that case. -/
def register_signal (st : RegistryState) (signum frame : Nat) :
    RegistryState × Bool :=
  match st.signals with
  | none => (st, true)
  | some m =>
    let signums := m.map Prod.fst
    let mask1 := blockList signums st.mask
    ({ st with pendingSignals := st.pendingSignals ++ [(signum, frame)],
               mask := unblockList signums mask1 }, false)

/-- Deliver a whole sequence of monitored signals through the deferring
handler, oldest first. -/
def deliverAll (st : RegistryState) : List (Nat × Nat) → RegistryState
  | [] => st
  | (s, f) :: rest => deliverAll (register_signal st s f).1 rest

/-- `PreserveHandler.AUTO` (`_preserve_if_not_dfl` in `synsignals.py`):
preserve the current disposition unless it is the Python-runtime baseline —
`signal.default_int_handler` for SIGINT, `SIG_IGN` for SIGPIPE, `SIG_DFL`
otherwise.  `current` models `signal.getsignal`. -/
def preserveIfNotDfl (current : Nat → Option Disposition) (signum : Nat) : Bool :=
  if signum = SIGINT then decide (current signum ≠ some Disposition.defaultIntHandler)
  else if signum = SIGPIPE then decide (current signum ≠ some Disposition.sigIgn)
  else decide (current signum ≠ some Disposition.sigDfl)

/-- `PreserveHandler.ALWAYS`. -/
def preserveAlways (_ : Nat) : Bool := true

/-- `PreserveHandler.NEVER`. -/
def preserveNever (_ : Nat) : Bool := false

/-- Result of `synsignals.set`: the state after the call and the message of
the `ValueError`, if one was raised. -/
structure SetResult where
  st : RegistryState
  error : Option String
  deriving Repr, DecidableEq

/-- `synsignals.set(signals, preserve_handler=...)` (lines 54-81):

* `if not signals: block_handling(); return` — an empty mapping only sets
  the suspension flag and succeeds, even after a prior installation;
* `if _signals is not None: raise ValueError(...)` — a second non-empty
  installation fails before mutating anything;
* otherwise: block the signal numbers, overwrite `signals[s]` with
  `signal.getsignal(s)` for each signal the preserve policy selects,
  publish `_signals`/`_signums`, install the deferring handler for every
  signal, and unblock the signal numbers. -/
def set (current : Nat → Option Disposition) (preserve_handler : Nat → Bool)
    (signals : List (Nat × Option Disposition)) (st : RegistryState) : SetResult :=
  if signals = [] then ⟨block_handling st, none⟩
  else if st.signals ≠ none then ⟨st, some "Signals can only be set once"⟩
  else
    let signums := signals.map Prod.fst
    let mask1 := blockList signums st.mask
    let signals' := signals.map
      (fun p => if preserve_handler p.1 then (p.1, current p.1) else p)
    let mask2 := unblockList signums mask1
    ⟨{ st with signals := some signals', mask := mask2 }, none⟩

/-- Projection of a drain trace onto the entries actually popped and
processed, in order. -/
def dispatched (evs : List Event) : List (Nat × Nat) :=
  evs.filterMap (fun e =>
    match e with
    | Event.dispatch s f => some (s, f)
    | _ => none)

end Synsignals

/-!
Embedding of the parts of `src/lib/nixos-upgrade.py` the claims are about:
the termination escalation path, the exit-code policy of `run_cmd`, and the
privileged-channel primitives `write_to_pipe`, `write_to_pipe_check`,
`readline_from_worker` and `run_privileged_task`.
-/

namespace NixosUpgrade

/-- `CliProgram.EXIT_SIG_CODE_SHIFT`. -/
def EXIT_SIG_CODE_SHIFT : Nat := 128

/-- `CliProgram.SIG_TO_TERM_SUBPROC = signal.SIGTERM`. -/
def SIG_TO_TERM_SUBPROC : Nat := 15

/-- `CliProgram.SIG_TO_KILL_SUBPROC = signal.SIGKILL`. -/
def SIG_TO_KILL_SUBPROC : Nat := 9

/-- `CliProgram.TERM_SUBPROC_TIMEOUT` (seconds of grace). -/
def TERM_SUBPROC_TIMEOUT : Nat := 5

/-- `CliProgram.get_sig_exit_code(signum)`. -/
def get_sig_exit_code (signum : Nat) : Nat := EXIT_SIG_CODE_SHIFT + signum

/-- A scenario for the running subprocess as seen by the termination
handler: its pid (equal to its process-group id, the child being started
in a new session), whether `proc.returncode` was already set on entry, and
whether `proc.communicate(timeout=TERM_SUBPROC_TIMEOUT)` returns before
the grace period elapses (`false` means `TimeoutExpired`). -/
structure ChildScenario where
  pid : Nat
  alreadyExited : Bool
  exitsWithinGrace : Bool
  deriving Repr, DecidableEq

/-- Observable actions of `CliProgram.termination_signal_handler`. -/
inductive TermEvent where
  | killpg (pgid sig : Nat)
  | waitGrace (pgid timeout : Nat)
  | waitUnbounded (pgid : Nat)
  | exitProgram (code : Nat)
  deriving Repr, DecidableEq

/-- `CliProgram.termination_signal_handler(signum, frame)` (lines 98-129):
if a subprocess is running and `returncode is None`, send
`SIG_TO_TERM_SUBPROC` to its process group; wait up to
`TERM_SUBPROC_TIMEOUT` in `communicate`; on `TimeoutExpired` send
`SIG_TO_KILL_SUBPROC` to the process group and wait unconditionally;
finally exit with `get_sig_exit_code(signum)`. -/
def termination_signal_handler (signum : Nat) (child : Option ChildScenario) :
    List TermEvent :=
  match child with
  | none => [TermEvent.exitProgram (get_sig_exit_code signum)]
  | some c =>
    (if c.alreadyExited then []
     else [TermEvent.killpg c.pid SIG_TO_TERM_SUBPROC]) ++
    [TermEvent.waitGrace c.pid TERM_SUBPROC_TIMEOUT] ++
    (if c.exitsWithinGrace then []
     else [TermEvent.killpg c.pid SIG_TO_KILL_SUBPROC,
           TermEvent.waitUnbounded c.pid]) ++
    [TermEvent.exitProgram (get_sig_exit_code signum)]

/-- `os.EX_OK`. -/
def EX_OK : Int := 0

/-- Observable actions of the exit-code policy at the end of `run_cmd`. -/
inductive CmdEvent where
  | logError (msg : String)
  | logSuccess (msg : String)
  | exitProgram (code : Int)
  deriving Repr, DecidableEq

/-- Tail of `CliProgram.run_cmd` (lines 219-232): when
`retcode != os.EX_OK`, log a subprocess error and, only when the caller
passed `exit_on_error=True`, abort the program with that code; when the
exit code is `os.EX_OK`, log the optional success message. -/
def run_cmd_epilogue (command : String) (retcode : Int) (exit_on_error : Bool)
    (msg_on_success : String) : List CmdEvent :=
  if retcode ≠ EX_OK then
    [CmdEvent.logError ("`" ++ command ++ "` subprocess error")] ++
      (if exit_on_error then [CmdEvent.exitProgram retcode] else [])
  else
    if msg_on_success ≠ "" then [CmdEvent.logSuccess msg_on_success] else []

/-- Characters Python's `str.rstrip()` removes (the ASCII whitespace
characters relevant to newline-terminated protocol lines). -/
def pyIsSpace (c : Char) : Bool :=
  c = ' ' || c = '\t' || c = '\n' || c = '\r' || c = '\x0b' || c = '\x0c'

/-- Python `raw.rstrip()`: remove every trailing whitespace character. -/
def rstrip (s : String) : String :=
  ⟨(s.data.reverse.dropWhile pyIsSpace).reverse⟩

/-- `CliProgram.readline_from_worker()` applied to the raw line the stream
returned: `self.from_worker_file.readline().rstrip()`. -/
def readline_from_worker (raw : String) : String := rstrip raw

/-- Python `ifs.join(cmd)`. -/
def joinFields (sep : String) : List String → String
  | [] => ""
  | [x] => x
  | x :: y :: rest => x ++ sep ++ joinFields sep (y :: rest)

/-- `CliProgram.write_to_pipe(cmd)` (lines 701-704): the exact bytes
written to the outbound descriptor, `IFS.join(cmd) + "\n"`. -/
def write_to_pipe (ifs : String) (cmd : List String) : String :=
  joinFields ifs cmd ++ "\n"

/-- The fixed liveness token the worker must echo. -/
def PONG : String := "PONG"

/-- The retry budget of `write_to_pipe_check` (`attempts = 100`). -/
def ATTEMPTS : Nat := 100

/-- Result of the non-blocking polling loop of `write_to_pipe_check`:
final value of `pong`, the values every executed `readline` returned (in
order), the lines still unread on the inbound stream, and the number of
loop iterations that ran. -/
structure LoopResult where
  pong : String
  trace : List String
  remaining : List String
  used : Nat
  deriving Repr, DecidableEq

/-- The `while attempts > 0` loop of `write_to_pipe_check` (lines
689-695).  The inbound stream is modelled by `ls`, the queue of complete
raw lines the worker will have written, and `sch`, a schedule saying for
each iteration whether the next line has already arrived (a non-blocking
`readline` returns the empty string when no complete line is available).
Each iteration sleeps, reads, breaks on a non-empty (rstripped) line, and
otherwise decrements the budget. -/
def check_loop : Nat → List String → List Bool → LoopResult
  | 0, ls, _ => ⟨"", [], ls, 0⟩
  | a + 1, ls, sch =>
    let avail := sch.headD false
    let sch' := sch.tail
    match ls with
    | [] =>
      let r := check_loop a [] sch'
      ⟨r.pong, "" :: r.trace, r.remaining, r.used + 1⟩
    | l :: rest =>
      if avail then
        let pong := readline_from_worker l
        if pong = "" then
          let r := check_loop a rest sch'
          ⟨r.pong, pong :: r.trace, r.remaining, r.used + 1⟩
        else ⟨pong, [pong], rest, 1⟩
      else
        let r := check_loop a (l :: rest) sch'
        ⟨r.pong, "" :: r.trace, r.remaining, r.used + 1⟩

/-- Result of `write_to_pipe_check`: bytes written, the polling loop's
outcome, and whether `exit_with_error("privileged process is not
responding")` was reached (`pong != "PONG"`). -/
structure CheckResult where
  wire : String
  pong : String
  trace : List String
  used : Nat
  remaining : List String
  err : Bool
  deriving Repr, DecidableEq

/-- `CliProgram.write_to_pipe_check(cmd)` (lines 685-699): write the
request, poll non-blockingly for up to `ATTEMPTS` short-interval retries,
then fail fatally unless the line observed equals `"PONG"`. -/
def write_to_pipe_check (ifs : String) (cmd : List String)
    (ls : List String) (sch : List Bool) : CheckResult :=
  let wire := write_to_pipe ifs cmd
  let r := check_loop ATTEMPTS ls sch
  ⟨wire, r.pong, r.trace, r.used, r.remaining, decide (r.pong ≠ PONG)⟩

/-- Result of `run_privileged_task`: the returned task result (`none` when
the liveness check aborted the program, or when the blocking `readline`
would block forever because no further line ever arrives), the bytes
written, the lines left unread afterwards, and the liveness-check error
flag. -/
structure TaskResult where
  result : Option String
  wire : String
  leftover : List String
  err : Bool
  deriving Repr, DecidableEq

/-- `CliProgram.run_privileged_task(name, *args)` (lines 430-438):
`write_to_pipe_check([name, *args])`, then one blocking
`readline_from_worker()` whose value is returned. -/
def run_privileged_task (ifs name : String) (args : List String)
    (ls : List String) (sch : List Bool) : TaskResult :=
  let ck := write_to_pipe_check ifs (name :: args) ls sch
  if ck.err then ⟨none, ck.wire, ck.remaining, true⟩
  else
    match ck.remaining with
    | [] => ⟨none, ck.wire, [], false⟩
    | l :: rest => ⟨some (readline_from_worker l), ck.wire, rest, false⟩

end NixosUpgrade

/-!
Proofs about the signal-deferral registry.
-/

namespace Synsignals

theorem mem_unblockList {s : Nat} {xs mask : List Nat} :
    s ∈ unblockList xs mask ↔ s ∈ mask ∧ s ∉ xs := by
  simp [unblockList, List.mem_filter]

theorem mem_blockList {s : Nat} {xs mask : List Nat} :
    s ∈ blockList xs mask ↔ s ∈ mask ∨ s ∈ xs := by
  simp [blockList, List.mem_filter]
  tauto

theorem dispatched_append (a b : List Event) :
    dispatched (a ++ b) = dispatched a ++ dispatched b := by
  simp [dispatched, List.filterMap_append]

theorem dispatchEntry_ok {m : List (Nat × Option Disposition)} {signum : Nat}
    {v : Option Disposition} (mask : List Nat) (frame : Nat)
    (h : lookup m signum = some v) :
    (dispatchEntry m mask signum frame).err = false ∧
    dispatched (dispatchEntry m mask signum frame).events = [(signum, frame)] := by
  unfold dispatchEntry
  rw [h]
  cases v with
  | none => simp [dispatched]
  | some d => cases d <;> simp [dispatched]

theorem handleLoop_ok {m : List (Nat × Option Disposition)} :
    ∀ (pending : List (Nat × Nat)) (mask : List Nat),
      (∀ p ∈ pending, lookup m p.1 ≠ none) →
      (handleLoop m pending mask).err = false ∧
      (handleLoop m pending mask).pending = [] ∧
      dispatched (handleLoop m pending mask).events = pending := by
  intro pending
  induction pending with
  | nil => intro mask _; simp [handleLoop, dispatched]
  | cons p rest ih =>
    intro mask h
    obtain ⟨s, f⟩ := p
    obtain ⟨v, hv⟩ := Option.ne_none_iff_exists'.mp (h (s, f) (List.mem_cons_self _ _))
    have hd := dispatchEntry_ok (m := m) mask f hv
    have hrest : ∀ p ∈ rest, lookup m p.1 ≠ none := by
      intro q hq; exact h q (List.mem_cons_of_mem _ hq)
    have hih := ih (dispatchEntry m mask s f).mask hrest
    simp only [handleLoop, hd.1, if_false, Bool.false_eq_true]
    refine ⟨hih.1, hih.2.1, ?_⟩
    rw [dispatched_append, hd.2, hih.2.2]
    rfl

theorem deliverAll_state :
    ∀ (ds : List (Nat × Nat)) (st : RegistryState)
      (m : List (Nat × Option Disposition)), st.signals = some m →
      (deliverAll st ds).signals = some m ∧
      (deliverAll st ds).handlingBlocked = st.handlingBlocked ∧
      (deliverAll st ds).pendingSignals = st.pendingSignals ++ ds := by
  intro ds
  induction ds with
  | nil => intro st m h; simp [deliverAll, h]
  | cons d rest ih =>
    intro st m h
    obtain ⟨s, f⟩ := d
    have hreg : (register_signal st s f).1 =
        { st with pendingSignals := st.pendingSignals ++ [(s, f)],
                  mask := unblockList (m.map Prod.fst)
                    (blockList (m.map Prod.fst) st.mask) } := by
      simp [register_signal, h]
    have hsig : (register_signal st s f).1.signals = some m := by rw [hreg]; exact h
    have hih := ih (register_signal st s f).1 m hsig
    refine ⟨?_, ?_, ?_⟩
    · rw [deliverAll]; exact hih.1
    · rw [deliverAll, hih.2.1, hreg]
    · rw [deliverAll, hih.2.2, hreg]; simp

end Synsignals

namespace Synsignals

/-- C1: for every sequence of monitored signals delivered while the
suspension flag is set, `handle` dispatches nothing before
`unblock_handling` is called (it leaves the state untouched and performs
no action), and `unblock_handling` immediately drains the queue,
dispatching all queued entries strictly in arrival order (FIFO, oldest
first), each exactly once, leaving the queue empty. -/
theorem deferred_fifo_dispatch :
    ∀ (st : RegistryState) (m : List (Nat × Option Disposition))
      (ds : List (Nat × Nat)),
      st.handlingBlocked = true → st.signals = some m →
      (∀ p ∈ st.pendingSignals ++ ds, lookup m p.1 ≠ none) →
      (deliverAll st ds).pendingSignals = st.pendingSignals ++ ds ∧
      handle (deliverAll st ds) = ⟨deliverAll st ds, [], false⟩ ∧
      dispatched (unblock_handling (deliverAll st ds)).events =
        st.pendingSignals ++ ds ∧
      (unblock_handling (deliverAll st ds)).st.pendingSignals = [] ∧
      (unblock_handling (deliverAll st ds)).err = false := by
  intro st m ds hb hs hlook
  have hst := deliverAll_state ds st m hs
  have hloop := handleLoop_ok (m := m) (st.pendingSignals ++ ds)
    (blockList (m.map Prod.fst) (deliverAll st ds).mask) hlook
  refine ⟨hst.2.2, ?_, ?_, ?_, ?_⟩
  · rw [handle, hst.2.1, hb]; simp
  all_goals
    rw [unblock_handling, handle]
    simp only [hst.1, hst.2.2]
    simp only [Bool.false_eq_true, if_false]
    simp [hloop.1, hloop.2.1, hloop.2.2]

/-- A concrete suspended registry monitoring signal 15 with a custom
stored handler. -/
def stW : RegistryState :=
  { signals := some [(15, some (Disposition.custom 0))],
    pendingSignals := [], handlingBlocked := true, mask := [] }

/-- Witness for `deferred_fifo_dispatch` at a concrete registry state with
two queued deliveries of signal 15. -/
theorem deferred_fifo_dispatch_witness :
    (deliverAll stW [(15, 0), (15, 1)]).pendingSignals =
      stW.pendingSignals ++ [(15, 0), (15, 1)] ∧
    handle (deliverAll stW [(15, 0), (15, 1)]) =
      ⟨deliverAll stW [(15, 0), (15, 1)], [], false⟩ ∧
    dispatched (unblock_handling (deliverAll stW [(15, 0), (15, 1)])).events =
      stW.pendingSignals ++ [(15, 0), (15, 1)] ∧
    (unblock_handling (deliverAll stW [(15, 0), (15, 1)])).st.pendingSignals = [] ∧
    (unblock_handling (deliverAll stW [(15, 0), (15, 1)])).err = false :=
  deferred_fifo_dispatch stW [(15, some (Disposition.custom 0))]
    [(15, 0), (15, 1)] rfl rfl (by decide)

/-- C2: case analysis of the drain-loop body.  A popped entry whose stored
disposition is missing (`None`) or explicit-ignore has no effect; a stored
non-default handler is invoked synchronously with the entry's signal and
context; a stored default disposition triggers the replay sequence —
install the default disposition for that one signal, re-raise it, unmask
only that signal (every other masked signal, in particular every other
monitored one, stays masked), re-mask it and restore the deferring
handler. -/
theorem dispatch_entry_cases :
    ∀ (m : List (Nat × Option Disposition)) (mask : List Nat)
      (signum frame : Nat),
      ((lookup m signum = some none ∨
        lookup m signum = some (some Disposition.sigIgn)) →
        dispatchEntry m mask signum frame =
          ⟨[Event.dispatch signum frame], mask, false⟩) ∧
      (∀ d, lookup m signum = some (some d) →
        d ≠ Disposition.sigIgn → d ≠ Disposition.sigDfl →
        dispatchEntry m mask signum frame =
          ⟨[Event.dispatch signum frame, Event.invoke d signum frame],
           mask, false⟩) ∧
      (lookup m signum = some (some Disposition.sigDfl) →
        dispatchEntry m mask signum frame =
          ⟨[Event.dispatch signum frame, Event.installDefault signum,
            Event.raiseSignal signum, Event.unblockOne signum,
            Event.blockOne signum, Event.restoreDeferring signum],
           blockList [signum] (unblockList [signum] mask), false⟩ ∧
        signum ∉ unblockList [signum] mask ∧
        (∀ s, s ∈ mask → s ≠ signum → s ∈ unblockList [signum] mask) ∧
        signum ∈ blockList [signum] (unblockList [signum] mask) ∧
        (∀ s, s ∈ mask → s ≠ signum →
          s ∈ blockList [signum] (unblockList [signum] mask))) := by
  intro m mask signum frame
  refine ⟨?_, ?_, ?_⟩
  · rintro (h | h) <;> simp [dispatchEntry, h]
  · intro d h h1 h2
    simp [dispatchEntry, h, h1, h2]
  · intro h
    refine ⟨by simp [dispatchEntry, h], ?_, ?_, ?_, ?_⟩
    · simp [mem_unblockList]
    · intro s hs hne; exact mem_unblockList.mpr ⟨hs, by simpa using hne⟩
    · exact mem_blockList.mpr (Or.inr (by simp))
    · intro s hs hne
      exact mem_blockList.mpr (Or.inl (mem_unblockList.mpr ⟨hs, by simpa using hne⟩))

/-- Witness for `dispatch_entry_cases` at a registry that stores the
default disposition for signal 15, with signals 15 and 2 masked. -/
theorem dispatch_entry_cases_witness :
    lookup [(15, some Disposition.sigDfl)] 15 = some (some Disposition.sigDfl) ∧
    (dispatchEntry [(15, some Disposition.sigDfl)] [15, 2] 15 0 =
      ⟨[Event.dispatch 15 0, Event.installDefault 15, Event.raiseSignal 15,
        Event.unblockOne 15, Event.blockOne 15, Event.restoreDeferring 15],
       blockList [15] (unblockList [15] [15, 2]), false⟩ ∧
     15 ∉ unblockList [15] [15, 2] ∧
     (∀ s, s ∈ [15, 2] → s ≠ 15 → s ∈ unblockList [15] [15, 2]) ∧
     15 ∈ blockList [15] (unblockList [15] [15, 2]) ∧
     (∀ s, s ∈ [15, 2] → s ≠ 15 →
       s ∈ blockList [15] (unblockList [15] [15, 2]))) :=
  ⟨by decide,
   (dispatch_entry_cases [(15, some Disposition.sigDfl)] [15, 2] 15 0).2.2
     (by decide)⟩

end Synsignals

namespace Synsignals

/-- A `signal.getsignal` table where every disposition is `SIG_DFL`. -/
def cur0 : Nat → Option Disposition := fun _ => some Disposition.sigDfl

/-- The registry state after a first successful installation: signal 15
registered with a custom handler, starting from a fresh process. -/
def st_first : RegistryState :=
  (Synsignals.set cur0 (preserveIfNotDfl cur0)
    [(15, some (Disposition.custom 0))] initial).st

/-- C3 counterexample: after a successful first installation, a second
call to `set` with an empty signal mapping does not fail at all (the code
returns before the double-installation check), and it flips the
suspension flag of the first registration's state.  This refutes both the
"always fails" and the "leaves the suspension flag unchanged" parts of
the claim. -/
theorem second_set_empty_no_failure :
    st_first.signals ≠ none ∧
    st_first.handlingBlocked = false ∧
    (Synsignals.set cur0 (preserveIfNotDfl cur0) [] st_first).error = none ∧
    (Synsignals.set cur0 (preserveIfNotDfl cur0) [] st_first).st.handlingBlocked
      = true := by
  decide

/-- C3 amended: a second call to `set` whose signal mapping is non-empty
always fails with `ValueError("Signals can only be set once")` and
returns with the registry state untouched; only a second call with an
empty mapping escapes the check (it merely sets the suspension flag, see
`second_set_empty_no_failure`). -/
theorem second_set_nonempty_fails :
    ∀ (current : Nat → Option Disposition) (preserve : Nat → Bool)
      (signals : List (Nat × Option Disposition)) (st : RegistryState),
      signals ≠ [] → st.signals ≠ none →
      Synsignals.set current preserve signals st =
        ⟨st, some "Signals can only be set once"⟩ := by
  intro c p sigs st h1 h2
  simp [Synsignals.set, h1, h2]

/-- Witness for `second_set_nonempty_fails`: a second, non-empty
installation attempt on `st_first`. -/
theorem second_set_nonempty_fails_witness :
    ([((2 : Nat), (none : Option Disposition))] ≠
      ([] : List (Nat × Option Disposition))) ∧
    st_first.signals ≠ none ∧
    Synsignals.set cur0 preserveNever [(2, none)] st_first =
      ⟨st_first, some "Signals can only be set once"⟩ :=
  ⟨by decide, by decide,
   second_set_nonempty_fails cur0 preserveNever [(2, none)] st_first
     (by decide) (by decide)⟩

/-- C9: under the AUTO policy, `set` captures (`signals[s] =
signal.getsignal(s)`) exactly the signals whose current disposition
differs from the Python-runtime baseline: `signal.default_int_handler`
for SIGINT, `SIG_IGN` for SIGPIPE, `SIG_DFL` for every other signal; all
other entries keep the caller-supplied value. -/
theorem auto_preserve_policy :
    (∀ (current : Nat → Option Disposition) (s : Nat),
      preserveIfNotDfl current s = true ↔
        ((s = SIGINT ∧ current s ≠ some Disposition.defaultIntHandler) ∨
         (s ≠ SIGINT ∧ s = SIGPIPE ∧ current s ≠ some Disposition.sigIgn) ∨
         (s ≠ SIGINT ∧ s ≠ SIGPIPE ∧ current s ≠ some Disposition.sigDfl))) ∧
    (∀ (current : Nat → Option Disposition)
      (signals : List (Nat × Option Disposition)) (st : RegistryState),
      signals ≠ [] → st.signals = none →
      (Synsignals.set current (preserveIfNotDfl current) signals st).st.signals =
        some (signals.map
          (fun p => if preserveIfNotDfl current p.1 then (p.1, current p.1) else p))) := by
  constructor
  · intro current s
    by_cases h2 : s = SIGINT
    · simp [preserveIfNotDfl, h2, SIGINT, SIGPIPE]
    · by_cases h13 : s = SIGPIPE
      · simp [preserveIfNotDfl, h2, h13, SIGINT, SIGPIPE]
      · simp [preserveIfNotDfl, h2, h13]
  · intro current sigs st h1 h2
    simp [Synsignals.set, h1, h2]

/-- Witness for `auto_preserve_policy`: installing on a fresh process with
every current disposition `SIG_DFL`; SIGINT differs from its baseline
(`default_int_handler`), so it is captured, while signal 15 matches its
baseline (`SIG_DFL`) and keeps the caller's value. -/
theorem auto_preserve_policy_witness :
    ([((2 : Nat), (none : Option Disposition)),
      ((15 : Nat), (none : Option Disposition))] ≠
      ([] : List (Nat × Option Disposition))) ∧
    initial.signals = none ∧
    (Synsignals.set cur0 (preserveIfNotDfl cur0)
      [(2, none), (15, none)] initial).st.signals =
      some ([((2 : Nat), (none : Option Disposition)),
             ((15 : Nat), (none : Option Disposition))].map
        (fun p => if preserveIfNotDfl cur0 p.1 then (p.1, cur0 p.1) else p)) :=
  ⟨by decide, rfl,
   auto_preserve_policy.2 cur0 [(2, none), (15, none)] initial (by decide) rfl⟩

/-- C10: calling `set` with an empty signal mapping never raises — even
when `_signals` is already installed — registers nothing, preserves
nothing, and only sets the suspension flag; from then on `handle` is a
no-op (no state change, no action) until `unblock_handling` clears the
flag. -/
theorem empty_set_only_blocks :
    ∀ (current : Nat → Option Disposition) (preserve : Nat → Bool)
      (st : RegistryState),
      (Synsignals.set current preserve [] st).error = none ∧
      (Synsignals.set current preserve [] st).st.signals = st.signals ∧
      (Synsignals.set current preserve [] st).st.pendingSignals =
        st.pendingSignals ∧
      (Synsignals.set current preserve [] st).st.mask = st.mask ∧
      (Synsignals.set current preserve [] st).st.handlingBlocked = true ∧
      handle (Synsignals.set current preserve [] st).st =
        ⟨(Synsignals.set current preserve [] st).st, [], false⟩ := by
  intro current preserve st
  refine ⟨rfl, rfl, rfl, rfl, rfl, ?_⟩
  simp [Synsignals.set, block_handling, handle]

end Synsignals

/-!
Proofs about the supervisor's termination escalation, the exit-code
policy, and the privileged channel.
-/

namespace NixosUpgrade

/-- C4: during termination escalation, `SIGKILL` is sent to the child's
process group exactly when the child has not exited by the time the grace
period elapses; a child that exits within the grace period is never sent
the forceful kill; and in every case (child present and already exited or
not, or no child at all) the handler ends by terminating the program with
the exit code `EXIT_SIG_CODE_SHIFT + signum` derived from the signal
number. -/
theorem termination_escalation :
    ∀ (signum : Nat) (c : ChildScenario),
      (TermEvent.killpg c.pid SIG_TO_KILL_SUBPROC ∈
          termination_signal_handler signum (some c) ↔
        c.exitsWithinGrace = false) ∧
      (termination_signal_handler signum (some c)).getLast? =
        some (TermEvent.exitProgram (get_sig_exit_code signum)) ∧
      (termination_signal_handler signum none).getLast? =
        some (TermEvent.exitProgram (get_sig_exit_code signum)) ∧
      get_sig_exit_code signum = 128 + signum := by
  intro signum c
  obtain ⟨pid, ae, eg⟩ := c
  refine ⟨?_, ?_, rfl, rfl⟩
  · cases ae <;> cases eg <;>
      simp [termination_signal_handler, SIG_TO_KILL_SUBPROC, SIG_TO_TERM_SUBPROC]
  · cases ae <;> cases eg <;>
      simp [termination_signal_handler, List.getLast?]

/-- C7: `write_to_pipe` produces exactly the bytes obtained by joining the
fields with the configured separator (Python `str.join`, i.e.
`String.intercalate`) and appending the newline terminator; with
separator `|` and fields `["build", "/tmp#cfg"]` the wire bytes are
exactly `build|/tmp#cfg` followed by a newline. -/
theorem write_to_pipe_wire_format :
    (∀ (sep : String) (fields : List String),
      write_to_pipe sep fields = String.intercalate sep fields ++ "\n") ∧
    write_to_pipe "|" ["build", "/tmp#cfg"] = "build|/tmp#cfg\n" := by
  have go_eq : ∀ (sep : String) (as : List String) (acc : String),
      String.intercalate.go acc sep as = joinFields sep (acc :: as) := by
    intro sep as
    induction as with
    | nil => intro acc; rfl
    | cons b bs ih =>
      intro acc
      rw [String.intercalate.go, ih]
      cases bs with
      | nil => rfl
      | cons c cs => simp [joinFields, String.append_assoc]
  have hjoin : ∀ (sep : String) (l : List String),
      joinFields sep l = String.intercalate sep l := by
    intro sep l
    cases l with
    | nil => rfl
    | cons a as => rw [String.intercalate, go_eq]
  exact ⟨fun sep fields => by rw [write_to_pipe, hjoin], rfl⟩

/-- C8: the exit-code policy at the end of `run_cmd`.  A subprocess error
is logged exactly when the exit code differs from `os.EX_OK`, and the
program is aborted exactly when additionally the caller opted in with
`exit_on_error`; a child exiting with `os.EX_OK` produces neither. -/
theorem run_cmd_exit_code_policy :
    ∀ (command : String) (retcode : Int) (eoe : Bool) (msg : String),
      ((∃ m, CmdEvent.logError m ∈ run_cmd_epilogue command retcode eoe msg) ↔
        retcode ≠ EX_OK) ∧
      ((∃ c, CmdEvent.exitProgram c ∈ run_cmd_epilogue command retcode eoe msg) ↔
        (retcode ≠ EX_OK ∧ eoe = true)) := by
  intro command retcode eoe msg
  by_cases h : retcode = EX_OK
  · constructor
    · simp only [run_cmd_epilogue, h]
      by_cases hm : msg = "" <;> simp [hm]
    · simp only [run_cmd_epilogue, h]
      by_cases hm : msg = "" <;> simp [hm]
  · constructor
    · simp [run_cmd_epilogue, h]
    · simp only [run_cmd_epilogue, h]
      cases eoe <;> simp [h]

end NixosUpgrade

namespace NixosUpgrade

theorem check_loop_zero (ls : List String) (sch : List Bool) :
    check_loop 0 ls sch = ⟨"", [], ls, 0⟩ := rfl

theorem check_loop_succ_nil (a : Nat) (sch : List Bool) :
    check_loop (a + 1) [] sch =
      ⟨(check_loop a [] sch.tail).pong,
       "" :: (check_loop a [] sch.tail).trace,
       (check_loop a [] sch.tail).remaining,
       (check_loop a [] sch.tail).used + 1⟩ := rfl

theorem check_loop_succ_cons (a : Nat) (l : String) (rest : List String)
    (sch : List Bool) :
    check_loop (a + 1) (l :: rest) sch =
      if sch.headD false then
        if readline_from_worker l = "" then
          ⟨(check_loop a rest sch.tail).pong,
           readline_from_worker l :: (check_loop a rest sch.tail).trace,
           (check_loop a rest sch.tail).remaining,
           (check_loop a rest sch.tail).used + 1⟩
        else ⟨readline_from_worker l, [readline_from_worker l], rest, 1⟩
      else
        ⟨(check_loop a (l :: rest) sch.tail).pong,
         "" :: (check_loop a (l :: rest) sch.tail).trace,
         (check_loop a (l :: rest) sch.tail).remaining,
         (check_loop a (l :: rest) sch.tail).used + 1⟩ := by
  rw [check_loop]

theorem check_loop_nil_eval :
    ∀ (a : Nat) (sch : List Bool),
      check_loop a [] sch = ⟨"", List.replicate a "", [], a⟩ := by
  intro a
  induction a with
  | zero => intro sch; rfl
  | succ a ih => intro sch; rw [check_loop_succ_nil, ih]; rfl

theorem check_loop_trace_mem :
    ∀ (a : Nat) (ls : List String) (sch : List Bool) (x : String),
      x ∈ (check_loop a ls sch).trace →
        x = "" ∨ x = (check_loop a ls sch).pong := by
  intro a
  induction a with
  | zero => intro ls sch x hx; simp [check_loop_zero] at hx
  | succ a ih =>
    intro ls sch x hx
    cases ls with
    | nil =>
      rw [check_loop_succ_nil] at hx ⊢
      rcases List.mem_cons.mp hx with h | h
      · exact Or.inl h
      · exact ih [] sch.tail x h
    | cons l rest =>
      rw [check_loop_succ_cons] at hx ⊢
      by_cases ha : sch.headD false
      · by_cases hr : readline_from_worker l = ""
        · simp only [ha, if_true, hr, if_pos rfl] at hx ⊢
          rcases List.mem_cons.mp hx with h | h
          · exact Or.inl h
          · exact ih rest sch.tail x h
        · simp only [ha, if_true, if_neg hr] at hx ⊢
          rcases List.mem_cons.mp hx with h | h
          · exact Or.inr h
          · simp at h
      · simp only [ha, if_false, Bool.false_eq_true] at hx ⊢
        rcases List.mem_cons.mp hx with h | h
        · exact Or.inl h
        · exact ih (l :: rest) sch.tail x h

theorem check_loop_pong_mem :
    ∀ (a : Nat) (ls : List String) (sch : List Bool),
      (check_loop a ls sch).pong ≠ "" →
      (check_loop a ls sch).pong ∈ (check_loop a ls sch).trace := by
  intro a
  induction a with
  | zero => intro ls sch h; exact absurd rfl h
  | succ a ih =>
    intro ls sch h
    cases ls with
    | nil =>
      rw [check_loop_succ_nil] at h ⊢
      exact List.mem_cons_of_mem _ (ih [] sch.tail h)
    | cons l rest =>
      rw [check_loop_succ_cons] at h ⊢
      by_cases ha : sch.headD false
      · by_cases hr : readline_from_worker l = ""
        · simp only [ha, if_true, hr, if_pos rfl] at h ⊢
          exact List.mem_cons_of_mem _ (ih rest sch.tail h)
        · simp only [ha, if_true, if_neg hr] at h ⊢
          exact List.mem_cons_self _ _
      · simp only [ha, if_false, Bool.false_eq_true] at h ⊢
        exact List.mem_cons_of_mem _ (ih (l :: rest) sch.tail h)

end NixosUpgrade

namespace NixosUpgrade

/-- C5: `write_to_pipe_check` fails fatally exactly when no read of the
polling loop ever returned the liveness token; a worker that never emits
any line makes the loop run for exactly the configured `ATTEMPTS = 100`
retries before the failure; and a token that becomes available only on the
last permitted retry still makes the call succeed (after all 100
iterations). -/
theorem liveness_retry_budget :
    (∀ (ifs : String) (cmd ls : List String) (sch : List Bool),
      (write_to_pipe_check ifs cmd ls sch).err = true ↔
        PONG ∉ (write_to_pipe_check ifs cmd ls sch).trace) ∧
    (∀ (ifs : String) (cmd : List String) (sch : List Bool),
      (write_to_pipe_check ifs cmd [] sch).used = ATTEMPTS ∧
      (write_to_pipe_check ifs cmd [] sch).err = true) ∧
    ((write_to_pipe_check "|" ["ping"] ["PONG\n"]
        (List.replicate 99 false ++ [true])).err = false ∧
     (write_to_pipe_check "|" ["ping"] ["PONG\n"]
        (List.replicate 99 false ++ [true])).used = ATTEMPTS) := by
  have key : ∀ (a : Nat) (ls : List String) (sch : List Bool),
      ((check_loop a ls sch).pong = PONG ↔ PONG ∈ (check_loop a ls sch).trace) := by
    intro a ls sch
    constructor
    · intro h
      have hne : (check_loop a ls sch).pong ≠ "" := by rw [h]; decide
      have hmem := check_loop_pong_mem a ls sch hne
      rwa [h] at hmem
    · intro h
      rcases check_loop_trace_mem a ls sch PONG h with h1 | h1
      · exact absurd h1 (by decide)
      · exact h1.symm
  refine ⟨?_, ?_, ?_⟩
  · intro ifs cmd ls sch
    simp only [write_to_pipe_check, decide_eq_true_eq]
    exact not_congr (key ATTEMPTS ls sch)
  · intro ifs cmd sch
    simp [write_to_pipe_check, check_loop_nil_eval, PONG, ATTEMPTS]
  · constructor
    · decide
    · decide

/-- C6 counterexample: `run_privileged_task` does not return the result
line with only the record terminator stripped.  Against a worker whose
result line is `"OK \n"` (trailing space before the terminator), stripping
only the terminator would yield `"OK "`, but the code applies Python
`rstrip()` and returns `"OK"`. -/
theorem task_result_not_verbatim :
    (run_privileged_task "|" "ping" [] ["PONG\n", "OK \n"] [true]).result =
      some "OK" ∧
    "OK" ≠ "OK " := by
  constructor
  · decide
  · decide

/-- C6 amended: `run_privileged_task` composes the request from the fields
`[name, ...args]`, performs the checked liveness handshake, then performs
exactly one additional blocking read and returns that line with the
terminator and any other trailing whitespace stripped (Python `rstrip`);
in particular, against a worker that answers the token and then `"OK"`,
`run_privileged_task("ping")` returns `"OK"`. -/
theorem task_single_read_rstrip :
    ((run_privileged_task "|" "ping" [] ["PONG\n", "OK\n"] [true]).result =
        some "OK" ∧
     (run_privileged_task "|" "ping" [] ["PONG\n", "OK\n"] [true]).leftover = [] ∧
     (run_privileged_task "|" "ping" [] ["PONG\n", "OK\n"] [true]).wire =
        "ping\n") ∧
    (∀ (ifs name : String) (args ls : List String) (sch : List Bool),
      (run_privileged_task ifs name args ls sch).wire =
        write_to_pipe ifs (name :: args) ∧
      ((write_to_pipe_check ifs (name :: args) ls sch).err = false →
        (run_privileged_task ifs name args ls sch).result =
          ((write_to_pipe_check ifs (name :: args) ls sch).remaining.head?).map
            readline_from_worker ∧
        (run_privileged_task ifs name args ls sch).leftover =
          (write_to_pipe_check ifs (name :: args) ls sch).remaining.tail)) := by
  constructor
  · exact ⟨by decide, by decide, by decide⟩
  · intro ifs name args ls sch
    constructor
    · simp only [run_privileged_task]
      split
      · rfl
      · split <;> rfl
    · intro herr
      simp only [run_privileged_task, herr, Bool.false_eq_true, if_false]
      cases hrem : (write_to_pipe_check ifs (name :: args) ls sch).remaining with
      | nil => simp
      | cons l rest => simp

/-- Witness for `task_single_read_rstrip` at the concrete ping scenario. -/
theorem task_single_read_rstrip_witness :
    (write_to_pipe_check "|" ["ping"] ["PONG\n", "OK\n"] [true]).err = false ∧
    ((run_privileged_task "|" "ping" [] ["PONG\n", "OK\n"] [true]).result =
      ((write_to_pipe_check "|" ["ping"] ["PONG\n", "OK\n"] [true]).remaining.head?).map
        readline_from_worker ∧
     (run_privileged_task "|" "ping" [] ["PONG\n", "OK\n"] [true]).leftover =
      (write_to_pipe_check "|" ["ping"] ["PONG\n", "OK\n"] [true]).remaining.tail) :=
  ⟨by decide,
   (task_single_read_rstrip.2 "|" "ping" [] ["PONG\n", "OK\n"] [true]).2
     (by decide)⟩

end NixosUpgrade
